import Mathlib

set_option maxHeartbeats 1000000

/-!
Shallow embedding of `src/lib/request/request.js` (the HTTP transport layer of
Axosoft/rest.js) together with proofs about the claims of the specification.

Modelling conventions:
* JS values that can appear as JSON data are modelled by `RestJs.JVal`
  (numbers are modelled as integers; float formatting is outside the model).
* Machine strings are Lean `String`s; header mappings are association lists
  whose assignment semantics (`objSet`) mirrors JS object key assignment.
* The network is an oracle: a call is modelled as a pure function of the
  request options and of the single network event (a raw response, a network
  error, or a timeout) that settles the exchange.
* `JSON.parse` / `JSON.stringify` are modelled by an executable serializer and
  a fuel-based recursive-descent reader for the whitespace-free JSON grammar
  (which is exactly the sublanguage `JSON.stringify` emits).
-/

namespace RestJs

/-- JSON-representable JS values (numbers restricted to integers). -/
inductive JVal where
  | jnull
  | jbool (b : Bool)
  | jnum (n : Int)
  | jstr (s : String)
  | jarr (elems : List JVal)
  | jobj (fields : List (String × JVal))

/-- Decimal digit character for `n < 10`. -/
def digitChar (n : Nat) : Char := Char.ofNat (48 + n)

/-- Decimal representation of a natural number, most significant digit first. -/
def natChars (n : Nat) : List Char :=
  if _h : n < 10 then [digitChar n]
  else natChars (n / 10) ++ [digitChar (n % 10)]
  termination_by n
  decreasing_by exact Nat.div_lt_self (by omega) (by omega)

/-- Decimal representation of an integer, as `JSON.stringify` prints it. -/
def serInt (n : Int) : List Char :=
  if n < 0 then '-' :: natChars n.natAbs else natChars n.toNat

/-- Lower-case hexadecimal digit for `n < 16`. -/
def hexDigit (n : Nat) : Char :=
  if n < 10 then Char.ofNat (48 + n) else Char.ofNat (87 + n)

/-- JSON string escaping of one character, following `JSON.stringify`:
quote and backslash are escaped, the common control characters use their
short escapes, remaining control characters use a `\u00XX` escape. -/
def escapeChar (c : Char) : List Char :=
  if c = '"' then ['\\', '"']
  else if c = '\\' then ['\\', '\\']
  else if c = '\n' then ['\\', 'n']
  else if c = '\t' then ['\\', 't']
  else if c = '\r' then ['\\', 'r']
  else if c = '\x08' then ['\\', 'b']
  else if c = '\x0C' then ['\\', 'f']
  else if c.toNat < 32 then
    ['\\', 'u', '0', '0', hexDigit (c.toNat / 16), hexDigit (c.toNat % 16)]
  else [c]

/-- JSON string escaping of a character list. -/
def escapeList : List Char → List Char
  | [] => []
  | c :: cs => escapeChar c ++ escapeList cs

/-- Serialized JSON string literal (including the surrounding quotes). -/
def serStr (s : String) : List Char := '"' :: (escapeList s.data ++ ['"'])

mutual

/-- Serialization of a JSON value: the character stream `JSON.stringify` emits
(no whitespace, insertion-ordered object keys). -/
def serVal : JVal → List Char
  | .jnull => ['n', 'u', 'l', 'l']
  | .jbool true => ['t', 'r', 'u', 'e']
  | .jbool false => ['f', 'a', 'l', 's', 'e']
  | .jnum n => serInt n
  | .jstr s => serStr s
  | .jarr es => '[' :: (serElems es ++ [']'])
  | .jobj fs => '\x7b' :: (serFields fs ++ ['\x7d'])

/-- Serialization of array elements, comma separated. -/
def serElems : List JVal → List Char
  | [] => []
  | [e] => serVal e
  | e :: es => serVal e ++ ',' :: serElems es

/-- Serialization of object fields, comma separated. -/
def serFields : List (String × JVal) → List Char
  | [] => []
  | [(k, v)] => serStr k ++ ':' :: serVal v
  | (k, v) :: fs => serStr k ++ ':' :: serVal v ++ ',' :: serFields fs

end

/-- Value of a hexadecimal digit character. -/
def hexVal (c : Char) : Option Nat :=
  if '0' ≤ c ∧ c ≤ '9' then some (c.toNat - 48)
  else if 'a' ≤ c ∧ c ≤ 'f' then some (c.toNat - 87)
  else if 'A' ≤ c ∧ c ≤ 'F' then some (c.toNat - 55)
  else none

/-- Decoded character of a single-letter JSON escape. -/
def escDecode (e : Char) : Option Char :=
  if e = '"' then some '"'
  else if e = '\\' then some '\\'
  else if e = '/' then some '/'
  else if e = 'n' then some '\n'
  else if e = 't' then some '\t'
  else if e = 'r' then some '\r'
  else if e = 'b' then some '\x08'
  else if e = 'f' then some '\x0C'
  else none

/-- Reader for the four hex digits of a `\u` escape. -/
def pHex4 : List Char → Option (Char × List Char)
  | h1 :: h2 :: h3 :: h4 :: rest3 =>
    match hexVal h1, hexVal h2, hexVal h3, hexVal h4 with
    | some a, some b, some c2, some d =>
      some (Char.ofNat (((a * 16 + b) * 16 + c2) * 16 + d), rest3)
    | _, _, _, _ => none
  | _ => none

theorem pHex4_length {cs r : List Char} {d : Char} (h : pHex4 cs = some (d, r)) :
    r.length + 4 = cs.length := by
  match cs with
  | [] => exact absurd h (by simp [pHex4])
  | [_] => exact absurd h (by simp [pHex4])
  | [_, _] => exact absurd h (by simp [pHex4])
  | [_, _, _] => exact absurd h (by simp [pHex4])
  | h1 :: h2 :: h3 :: h4 :: rest3 =>
    simp only [pHex4] at h
    rcases hv1 : hexVal h1 with _ | a <;> rcases hv2 : hexVal h2 with _ | b <;>
      rcases hv3 : hexVal h3 with _ | c2 <;> rcases hv4 : hexVal h4 with _ | e <;>
        simp [hv1, hv2, hv3, hv4] at h
    rcases h with ⟨-, h⟩
    subst h
    simp

mutual

/-- Reader for the body of a JSON string literal (the opening quote already
consumed); returns the decoded characters and the input following the
closing quote. -/
def pStrBody : List Char → Option (List Char × List Char)
  | [] => none
  | c :: rest =>
    if c = '"' then some ([], rest)
    else if c = '\\' then pEsc rest
    else (pStrBody rest).map (fun p => (c :: p.1, p.2))
  termination_by cs => cs.length

/-- Reader for the part of a JSON string literal following a backslash. -/
def pEsc : List Char → Option (List Char × List Char)
  | [] => none
  | e :: rest2 =>
    if e = 'u' then
      match hu : pHex4 rest2 with
      | some (d, rest3) => (pStrBody rest3).map (fun p => (d :: p.1, p.2))
      | none => none
    else
      match escDecode e with
      | some d => (pStrBody rest2).map (fun p => (d :: p.1, p.2))
      | none => none
  termination_by cs => cs.length
  decreasing_by
  · have := pHex4_length hu
    simp only [List.length_cons]
    omega
  · simp

end

/-- Greedy split of the input into a leading run of decimal digits and the rest. -/
def pDigits : List Char → List Char × List Char
  | [] => ([], [])
  | c :: rest =>
    if c.isDigit then
      let p := pDigits rest
      (c :: p.1, p.2)
    else ([], c :: rest)

/-- Value of a list of decimal digit characters. -/
def digitsToNat (ds : List Char) : Nat :=
  ds.foldl (fun acc c => acc * 10 + (c.toNat - 48)) 0

/-- Reader for a nonempty run of decimal digits. -/
def pNum (cs : List Char) : Option (Nat × List Char) :=
  let p := pDigits cs
  if p.1 = [] then none else some (digitsToNat p.1, p.2)

/-- Literal continuation after an initial `n`. -/
def pAfterN : List Char → Option (JVal × List Char)
  | 'u' :: 'l' :: 'l' :: r => some (.jnull, r)
  | _ => none

/-- Literal continuation after an initial `t`. -/
def pAfterT : List Char → Option (JVal × List Char)
  | 'r' :: 'u' :: 'e' :: r => some (.jbool true, r)
  | _ => none

/-- Literal continuation after an initial `f`. -/
def pAfterF : List Char → Option (JVal × List Char)
  | 'a' :: 'l' :: 's' :: 'e' :: r => some (.jbool false, r)
  | _ => none

mutual

/-- Fuel-based reader for one JSON value. -/
def pVal : Nat → List Char → Option (JVal × List Char)
  | 0, _ => none
  | _ + 1, [] => none
  | f + 1, c :: rest =>
    if c = 'n' then pAfterN rest
    else if c = 't' then pAfterT rest
    else if c = 'f' then pAfterF rest
    else if c = '"' then (pStrBody rest).map (fun p => (.jstr ⟨p.1⟩, p.2))
    else if c = '[' then pArr f rest
    else if c = '\x7b' then pObj f rest
    else if c = '-' then (pNum rest).map (fun p => (.jnum (-(p.1 : Int)), p.2))
    else if c.isDigit then (pNum (c :: rest)).map (fun p => (.jnum (p.1 : Int), p.2))
    else none
  termination_by f _ => (f, 1)

/-- Reader for the inside of an array (the opening bracket consumed). -/
def pArr : Nat → List Char → Option (JVal × List Char)
  | _, ']' :: r => some (.jarr [], r)
  | f, cs => (pElems f cs).map (fun p => (.jarr p.1, p.2))
  termination_by f _ => (f, 2)

/-- Reader for the inside of an object (the opening brace consumed). -/
def pObj : Nat → List Char → Option (JVal × List Char)
  | _, '\x7d' :: r => some (.jobj [], r)
  | f, cs => (pFields f cs).map (fun p => (.jobj p.1, p.2))
  termination_by f _ => (f, 2)

/-- Reader for the elements of a nonempty array, including the closing
bracket. -/
def pElems : Nat → List Char → Option (List JVal × List Char)
  | 0, _ => none
  | f + 1, cs =>
    match pVal f cs with
    | some (v, r) => pAfterElem f v r
    | none => none
  termination_by f _ => (f, 1)

/-- Separator-or-close step after one array element. -/
def pAfterElem : Nat → JVal → List Char → Option (List JVal × List Char)
  | f, v, ',' :: r => (pElems f r).map (fun p => (v :: p.1, p.2))
  | _, v, ']' :: r => some ([v], r)
  | _, _, _ => none
  termination_by f _ _ => (f, 2)

/-- Reader for the fields of a nonempty object, including the closing
brace. -/
def pFields : Nat → List Char → Option (List (String × JVal) × List Char)
  | 0, _ => none
  | f + 1, '"' :: rest =>
    match pStrBody rest with
    | some (k, r) => pFieldRest f k r
    | none => none
  | _ + 1, _ => none
  termination_by f _ => (f, 1)

/-- Colon-and-value step after one object key. -/
def pFieldRest : Nat → List Char → List Char → Option (List (String × JVal) × List Char)
  | f, k, ':' :: rest2 =>
    match pVal f rest2 with
    | some (v, r) => pAfterField f k v r
    | none => none
  | _, _, _ => none
  termination_by f _ _ => (f, 3)

/-- Separator-or-close step after one object field. -/
def pAfterField : Nat → List Char → JVal → List Char → Option (List (String × JVal) × List Char)
  | f, k, v, ',' :: rest3 => (pFields f rest3).map (fun p => ((⟨k⟩, v) :: p.1, p.2))
  | _, k, v, '\x7d' :: rest3 => some ([(⟨k⟩, v)], rest3)
  | _, _, _, _ => none
  termination_by f _ _ _ => (f, 2)

end

mutual

/-- Fuel budget sufficient to read back a serialized value. -/
def needV : JVal → Nat
  | .jnull => 1
  | .jbool _ => 1
  | .jnum _ => 1
  | .jstr _ => 1
  | .jarr [] => 1
  | .jarr (e :: es) => needE (e :: es) + 1
  | .jobj [] => 1
  | .jobj (f :: fs) => needF (f :: fs) + 1

def needE : List JVal → Nat
  | [] => 1
  | e :: es => max (needV e) (needE es) + 1

def needF : List (String × JVal) → Nat
  | [] => 1
  | (_, v) :: fs => max (needV v) (needF fs) + 1

end

/-- Input whose head cannot extend a decimal digit run. -/
def noDigitHead : List Char → Bool
  | [] => true
  | c :: _ => !c.isDigit

theorem digitChar_isDigit {n : Nat} (h : n < 10) : (digitChar n).isDigit = true := by
  interval_cases n <;> decide

theorem digitChar_val {n : Nat} (h : n < 10) : (digitChar n).toNat - 48 = n := by
  interval_cases n <;> decide

theorem natChars_ne_nil (n : Nat) : natChars n ≠ [] := by
  unfold natChars
  split
  · simp
  · simp

theorem natChars_all_digit (n : Nat) : ∀ c ∈ natChars n, c.isDigit = true := by
  induction n using Nat.strong_induction_on with
  | _ n ih =>
    unfold natChars
    split
    · rename_i h
      intro c hc
      simp only [List.mem_singleton] at hc
      subst hc
      exact digitChar_isDigit h
    · rename_i h
      intro c hc
      rcases List.mem_append.mp hc with hc | hc
      · exact ih (n / 10) (Nat.div_lt_self (by omega) (by omega)) c hc
      · simp only [List.mem_singleton] at hc
        subst hc
        exact digitChar_isDigit (Nat.mod_lt _ (by omega))

theorem digitsToNat_append_digit (ds : List Char) (c : Char) :
    digitsToNat (ds ++ [c]) = digitsToNat ds * 10 + (c.toNat - 48) := by
  unfold digitsToNat
  rw [List.foldl_append]
  rfl

theorem digitsToNat_natChars (n : Nat) : digitsToNat (natChars n) = n := by
  induction n using Nat.strong_induction_on with
  | _ n ih =>
    unfold natChars
    split
    · rename_i h
      simp [digitsToNat, digitChar_val h]
    · rename_i h
      rw [digitsToNat_append_digit,
        ih (n / 10) (Nat.div_lt_self (by omega) (by omega)),
        digitChar_val (Nat.mod_lt _ (by omega))]
      omega

theorem pDigits_append (ds rest : List Char) (hds : ∀ c ∈ ds, c.isDigit = true)
    (hrest : noDigitHead rest = true) : pDigits (ds ++ rest) = (ds, rest) := by
  induction ds with
  | nil =>
    simp only [List.nil_append]
    cases rest with
    | nil => rfl
    | cons c r =>
      simp only [noDigitHead, Bool.not_eq_true'] at hrest
      simp [pDigits, hrest]
  | cons c ds ih =>
    have hc : c.isDigit = true := hds c (by simp)
    simp only [List.cons_append, pDigits, hc, if_pos]
    rw [show ds.append rest = ds ++ rest from rfl, ih (fun x hx => hds x (by simp [hx]))]

theorem pNum_natChars (n : Nat) (rest : List Char) (hrest : noDigitHead rest = true) :
    pNum (natChars n ++ rest) = some (n, rest) := by
  unfold pNum
  rw [pDigits_append _ _ (natChars_all_digit n) hrest]
  simp [natChars_ne_nil n, digitsToNat_natChars]

theorem digit_notStarter {c : Char} (h : c.isDigit = true) :
    c ≠ 'n' ∧ c ≠ 't' ∧ c ≠ 'f' ∧ c ≠ '"' ∧ c ≠ '[' ∧ c ≠ '\x7b' ∧ c ≠ '-' ∧
      c ≠ ']' ∧ c ≠ '\x7d' ∧ c ≠ ',' := by
  refine ⟨?_, ?_, ?_, ?_, ?_, ?_, ?_, ?_, ?_, ?_⟩ <;>
    (rintro rfl; exact absurd h (by decide))

theorem serElems_cons_ex (e : JVal) (es : List JVal) :
    ∃ u, serElems (e :: es) = serVal e ++ u := by
  cases es with
  | nil => exact ⟨[], by simp [serElems]⟩
  | cons e2 es => exact ⟨',' :: serElems (e2 :: es), rfl⟩

theorem serVal_head (v : JVal) : ∃ c t, serVal v = c :: t ∧ c ≠ ']' ∧ c ≠ '\x7d' := by
  cases v with
  | jnull => exact ⟨'n', _, rfl, by decide, by decide⟩
  | jbool b => cases b with
    | true => exact ⟨'t', _, rfl, by decide, by decide⟩
    | false => exact ⟨'f', _, rfl, by decide, by decide⟩
  | jstr s => exact ⟨'"', _, rfl, by decide, by decide⟩
  | jarr es => exact ⟨'[', _, rfl, by decide, by decide⟩
  | jobj fs => exact ⟨'\x7b', _, rfl, by decide, by decide⟩
  | jnum n =>
    rw [serVal, serInt]
    split
    · exact ⟨'-', _, rfl, by decide, by decide⟩
    · rcases hnc : natChars n.toNat with _ | ⟨d, t⟩
      · exact absurd hnc (natChars_ne_nil _)
      · have hd : d.isDigit = true := natChars_all_digit _ d (by rw [hnc]; simp)
        obtain ⟨_, _, _, _, _, _, _, h8, h9, _⟩ := digit_notStarter hd
        exact ⟨d, t, rfl, h8, h9⟩

theorem hexVal_hexDigit {n : Nat} (h : n < 16) : hexVal (hexDigit n) = some n := by
  interval_cases n <;> decide

theorem pStrBody_escape (s : List Char) (rest : List Char) :
    pStrBody (escapeList s ++ '"' :: rest) = some (s, rest) := by
  induction s with
  | nil => simp [escapeList, pStrBody]
  | cons c cs ih =>
    show pStrBody ((escapeChar c ++ escapeList cs) ++ '"' :: rest) = some (c :: cs, rest)
    by_cases h1 : c = '"'
    · subst h1; simp [escapeChar, pStrBody, pEsc, escDecode, ih]
    · by_cases h2 : c = '\\'
      · subst h2; simp [escapeChar, pStrBody, pEsc, escDecode, ih]
      · by_cases h3 : c = '\n'
        · subst h3; simp [escapeChar, pStrBody, pEsc, escDecode, ih]
        · by_cases h4 : c = '\t'
          · subst h4; simp [escapeChar, pStrBody, pEsc, escDecode, ih]
          · by_cases h5 : c = '\r'
            · subst h5; simp [escapeChar, pStrBody, pEsc, escDecode, ih]
            · by_cases h6 : c = '\x08'
              · subst h6; simp [escapeChar, pStrBody, pEsc, escDecode, ih]
              · by_cases h7 : c = '\x0C'
                · subst h7; simp [escapeChar, pStrBody, pEsc, escDecode, ih]
                · by_cases h8 : c.toNat < 32
                  · have he : escapeChar c =
                        ['\\', 'u', '0', '0', hexDigit (c.toNat / 16), hexDigit (c.toNat % 16)] := by
                      simp [escapeChar, h1, h2, h3, h4, h5, h6, h7, h8]
                    have hnum : ((0 * 16 + 0) * 16 + c.toNat / 16) * 16 + c.toNat % 16 = c.toNat := by
                      omega
                    have hp : pHex4 ('0' :: '0' :: hexDigit (c.toNat / 16) ::
                        hexDigit (c.toNat % 16) :: (escapeList cs ++ '"' :: rest)) =
                          some (c, escapeList cs ++ '"' :: rest) := by
                      simp only [pHex4, show hexVal '0' = some 0 from by decide,
                        hexVal_hexDigit (show c.toNat / 16 < 16 by omega),
                        hexVal_hexDigit (show c.toNat % 16 < 16 by omega)]
                      rw [hnum, Char.ofNat_toNat]
                    rw [he]
                    simp only [List.cons_append, List.nil_append]
                    simp [pStrBody, pEsc]
                    split
                    · rename_i d rest3 heq
                      rw [hp] at heq
                      injection heq with h
                      injection h with hd hr
                      subst hd
                      subst hr
                      simp [ih]
                    · rename_i heq
                      rw [hp] at heq
                      exact Option.noConfusion heq
                  · have he : escapeChar c = [c] := by
                      simp [escapeChar, h1, h2, h3, h4, h5, h6, h7, h8]
                    rw [he]
                    simp [pStrBody, h1, h2, ih]

theorem noDigitHead_cons {c : Char} (rest : List Char) (h : c.isDigit = false) :
    noDigitHead (c :: rest) = true := by
  simp [noDigitHead, h]

theorem pArr_cons {f : Nat} {c : Char} {t : List Char} (h : ¬c = ']') :
    pArr f (c :: t) = (pElems f (c :: t)).map (fun p => (.jarr p.1, p.2)) := by
  rw [pArr.eq_def]
  split
  · rename_i heq
    injection heq with h1 _
    exact absurd h1 h
  · rfl

theorem pObj_cons {f : Nat} {c : Char} {t : List Char} (h : ¬c = '\x7d') :
    pObj f (c :: t) = (pFields f (c :: t)).map (fun p => (.jobj p.1, p.2)) := by
  rw [pObj.eq_def]
  split
  · rename_i heq
    injection heq with h1 _
    exact absurd h1 h
  · rfl

theorem pVal_bracket (f : Nat) (t : List Char) : pVal (f + 1) ('[' :: t) = pArr f t := by
  simp [pVal]

theorem pVal_brace (f : Nat) (t : List Char) : pVal (f + 1) ('\x7b' :: t) = pObj f t := by
  simp [pVal]

theorem serFields_cons_head (k : String) (v : JVal) (fs : List (String × JVal)) :
    ∃ u, serFields ((k, v) :: fs) = '"' :: u := by
  cases fs with
  | nil => exact ⟨escapeList k.data ++ ['"'] ++ ':' :: serVal v, by simp [serFields, serStr]⟩
  | cons f2 fs =>
    exact ⟨escapeList k.data ++ ['"'] ++ (':' :: serVal v ++ ',' :: serFields (f2 :: fs)),
      by simp [serFields, serStr]⟩

mutual

theorem rt_val : ∀ (v : JVal) (g : Nat) (rest : List Char),
    needV v ≤ g → noDigitHead rest = true → pVal g (serVal v ++ rest) = some (v, rest)
  | .jnull, g, rest, hg, _ => by
    obtain ⟨g', rfl⟩ : ∃ g', g = g' + 1 := ⟨g - 1, by simp only [needV] at hg; omega⟩
    simp [serVal, pVal, pAfterN]
  | .jbool true, g, rest, hg, _ => by
    obtain ⟨g', rfl⟩ : ∃ g', g = g' + 1 := ⟨g - 1, by simp only [needV] at hg; omega⟩
    simp [serVal, pVal, pAfterT]
  | .jbool false, g, rest, hg, _ => by
    obtain ⟨g', rfl⟩ : ∃ g', g = g' + 1 := ⟨g - 1, by simp only [needV] at hg; omega⟩
    simp [serVal, pVal, pAfterF]
  | .jnum n, g, rest, hg, hr => by
    obtain ⟨g', rfl⟩ : ∃ g', g = g' + 1 := ⟨g - 1, by simp only [needV] at hg; omega⟩
    rw [show serVal (.jnum n) = serInt n from by simp [serVal]]
    by_cases hn : n < 0
    · rw [serInt, if_pos hn]
      rw [show ('-' :: natChars n.natAbs) ++ rest = '-' :: (natChars n.natAbs ++ rest) from rfl]
      simp [pVal, pNum_natChars _ _ hr]
      rw [abs_of_neg hn]
      simp
    · rw [serInt, if_neg hn]
      rcases hnc : natChars n.toNat with _ | ⟨d, t⟩
      · exact absurd hnc (natChars_ne_nil _)
      · have hd : d.isDigit = true := natChars_all_digit _ d (by rw [hnc]; simp)
        obtain ⟨q1, q2, q3, q4, q5, q6, q7, _, _, _⟩ := digit_notStarter hd
        show pVal (g' + 1) (d :: (t ++ rest)) = some (.jnum n, rest)
        simp only [pVal, q1, q2, q3, q4, q5, q6, q7, hd, if_false, if_true, ite_false, ite_true]
        rw [show d :: (t ++ rest) = natChars n.toNat ++ rest from by rw [hnc]; rfl]
        rw [pNum_natChars _ _ hr]
        have hcast : ((n.toNat : Int)) = n := by omega
        simp [hcast]
  | .jstr s, g, rest, hg, _ => by
    obtain ⟨g', rfl⟩ : ∃ g', g = g' + 1 := ⟨g - 1, by simp only [needV] at hg; omega⟩
    rw [show serVal (.jstr s) = serStr s from by simp [serVal], serStr]
    rw [show ('"' :: (escapeList s.data ++ ['"'])) ++ rest
        = '"' :: (escapeList s.data ++ '"' :: rest) from by simp]
    simp [pVal, pStrBody_escape]
  | .jarr [], g, rest, hg, _ => by
    obtain ⟨g', rfl⟩ : ∃ g', g = g' + 1 := ⟨g - 1, by simp only [needV] at hg; omega⟩
    simp [serVal, serElems, pVal, pArr]
  | .jarr (e :: es), g, rest, hg, _ => by
    obtain ⟨g', rfl⟩ : ∃ g', g = g' + 1 := ⟨g - 1, by simp only [needV] at hg; omega⟩
    have hgE : needE (e :: es) ≤ g' := by simp only [needV] at hg; omega
    obtain ⟨c0, t0, hc0, hne1, _⟩ := serVal_head e
    obtain ⟨u, hu2⟩ := serElems_cons_ex e es
    have hshape : serElems (e :: es) = c0 :: (t0 ++ u) := by rw [hu2, hc0]; rfl
    rw [show serVal (.jarr (e :: es)) = '[' :: (serElems (e :: es) ++ [']']) from by
      simp [serVal]]
    rw [show ('[' :: (serElems (e :: es) ++ [']'])) ++ rest
        = '[' :: (serElems (e :: es) ++ ']' :: rest) from by simp]
    rw [pVal_bracket]
    rw [show serElems (e :: es) ++ ']' :: rest = c0 :: (t0 ++ u ++ ']' :: rest) from by
      rw [hshape]; simp]
    rw [pArr_cons hne1]
    rw [show c0 :: (t0 ++ u ++ ']' :: rest) = serElems (e :: es) ++ ']' :: rest from by
      rw [hshape]; simp]
    rw [rt_elems (e :: es) g' rest (by simp) hgE]
    rfl
  | .jobj [], g, rest, hg, _ => by
    obtain ⟨g', rfl⟩ : ∃ g', g = g' + 1 := ⟨g - 1, by simp only [needV] at hg; omega⟩
    simp [serVal, serFields, pVal, pObj]
  | .jobj ((k, v) :: fs), g, rest, hg, _ => by
    obtain ⟨g', rfl⟩ : ∃ g', g = g' + 1 := ⟨g - 1, by simp only [needV] at hg; omega⟩
    have hgF : needF ((k, v) :: fs) ≤ g' := by simp only [needV] at hg; omega
    obtain ⟨u, hu3⟩ := serFields_cons_head k v fs
    rw [show serVal (.jobj ((k, v) :: fs))
        = '\x7b' :: (serFields ((k, v) :: fs) ++ ['\x7d']) from by simp [serVal]]
    rw [show ('\x7b' :: (serFields ((k, v) :: fs) ++ ['\x7d'])) ++ rest
        = '\x7b' :: (serFields ((k, v) :: fs) ++ '\x7d' :: rest) from by simp]
    rw [pVal_brace]
    rw [show serFields ((k, v) :: fs) ++ '\x7d' :: rest = '"' :: (u ++ '\x7d' :: rest) from by
      rw [hu3]; simp]
    rw [pObj_cons (by decide)]
    rw [show ('"' : Char) :: (u ++ '\x7d' :: rest)
        = serFields ((k, v) :: fs) ++ '\x7d' :: rest from by rw [hu3]; simp]
    rw [rt_fields ((k, v) :: fs) g' rest (by simp) hgF]
    rfl

theorem rt_elems : ∀ (es : List JVal) (g : Nat) (rest : List Char), es ≠ [] → needE es ≤ g →
    pElems g (serElems es ++ ']' :: rest) = some (es, rest)
  | [], _, _, h, _ => absurd rfl h
  | [e], g, rest, _, hg => by
    obtain ⟨g', rfl⟩ : ∃ g', g = g' + 1 := ⟨g - 1, by rw [needE] at hg; omega⟩
    have hmax := Nat.le_max_left (needV e) (needE ([] : List JVal))
    rw [needE] at hg
    have hgV : needV e ≤ g' := by omega
    rw [show serElems [e] = serVal e from by simp [serElems]]
    simp only [pElems]
    rw [rt_val e g' (']' :: rest) hgV (noDigitHead_cons _ (by decide))]
    simp [pAfterElem]
  | e :: e2 :: es, g, rest, _, hg => by
    obtain ⟨g', rfl⟩ : ∃ g', g = g' + 1 := ⟨g - 1, by rw [needE] at hg; omega⟩
    have hmax1 := Nat.le_max_left (needV e) (needE (e2 :: es))
    have hmax2 := Nat.le_max_right (needV e) (needE (e2 :: es))
    rw [needE] at hg
    have hgV : needV e ≤ g' := by omega
    have hgE : needE (e2 :: es) ≤ g' := by omega
    rw [show serElems (e :: e2 :: es) = serVal e ++ ',' :: serElems (e2 :: es) from by
      simp [serElems]]
    rw [show (serVal e ++ ',' :: serElems (e2 :: es)) ++ ']' :: rest
        = serVal e ++ ',' :: (serElems (e2 :: es) ++ ']' :: rest) from by simp]
    simp only [pElems]
    rw [rt_val e g' _ hgV (noDigitHead_cons _ (by decide))]
    show pAfterElem g' e (',' :: (serElems (e2 :: es) ++ ']' :: rest)) = _
    simp only [pAfterElem]
    rw [rt_elems (e2 :: es) g' rest (by simp) hgE]
    rfl

theorem rt_fields : ∀ (fs : List (String × JVal)) (g : Nat) (rest : List Char), fs ≠ [] →
    needF fs ≤ g → pFields g (serFields fs ++ '\x7d' :: rest) = some (fs, rest)
  | [], _, _, h, _ => absurd rfl h
  | [(k, v)], g, rest, _, hg => by
    obtain ⟨g', rfl⟩ : ∃ g', g = g' + 1 := ⟨g - 1, by rw [needF] at hg; omega⟩
    have hmax := Nat.le_max_left (needV v) (needF ([] : List (String × JVal)))
    rw [needF] at hg
    have hgV : needV v ≤ g' := by omega
    show pFields (g' + 1) (serFields [(k, v)] ++ '\x7d' :: rest) = _
    rw [show serFields [(k, v)] = serStr k ++ ':' :: serVal v from by simp [serFields], serStr]
    rw [show (('"' :: (escapeList k.data ++ ['"'])) ++ ':' :: serVal v) ++ '\x7d' :: rest
        = '"' :: (escapeList k.data ++ '"' :: (':' :: (serVal v ++ '\x7d' :: rest))) from by simp]
    simp only [pFields]
    rw [pStrBody_escape]
    show pFieldRest g' k.data (':' :: (serVal v ++ '\x7d' :: rest)) = _
    simp only [pFieldRest]
    rw [rt_val v g' _ hgV (noDigitHead_cons _ (by decide))]
    show pAfterField g' k.data v ('\x7d' :: rest) = _
    simp [pAfterField]
  | (k, v) :: f2 :: fs, g, rest, _, hg => by
    obtain ⟨g', rfl⟩ : ∃ g', g = g' + 1 := ⟨g - 1, by rw [needF] at hg; omega⟩
    have hmax1 := Nat.le_max_left (needV v) (needF (f2 :: fs))
    have hmax2 := Nat.le_max_right (needV v) (needF (f2 :: fs))
    rw [needF] at hg
    have hgV : needV v ≤ g' := by omega
    have hgF : needF (f2 :: fs) ≤ g' := by omega
    show pFields (g' + 1) (serFields ((k, v) :: f2 :: fs) ++ '\x7d' :: rest) = _
    rw [show serFields ((k, v) :: f2 :: fs)
        = serStr k ++ (':' :: serVal v ++ ',' :: serFields (f2 :: fs)) from by
          simp [serFields], serStr]
    rw [show (('"' :: (escapeList k.data ++ ['"'])) ++
          (':' :: serVal v ++ ',' :: serFields (f2 :: fs))) ++ '\x7d' :: rest
        = '"' :: (escapeList k.data ++ '"' ::
            (':' :: (serVal v ++ ',' :: (serFields (f2 :: fs) ++ '\x7d' :: rest)))) from by simp]
    simp only [pFields]
    rw [pStrBody_escape]
    show pFieldRest g' k.data (':' :: (serVal v ++ ',' :: (serFields (f2 :: fs) ++ '\x7d' :: rest))) = _
    simp only [pFieldRest]
    rw [rt_val v g' _ hgV (noDigitHead_cons _ (by decide))]
    show pAfterField g' k.data v (',' :: (serFields (f2 :: fs) ++ '\x7d' :: rest)) = _
    simp only [pAfterField]
    rw [rt_fields (f2 :: fs) g' rest (by simp) hgF]
    rfl

end

mutual

theorem needV_le : ∀ v : JVal, needV v ≤ (serVal v).length + 1
  | .jnull => by simp only [needV]; omega
  | .jbool b => by simp only [needV]; omega
  | .jnum n => by simp only [needV]; omega
  | .jstr s => by simp only [needV]; omega
  | .jarr [] => by simp only [needV]; omega
  | .jarr (e :: es) => by
    have h := needE_le (e :: es)
    rw [show serVal (.jarr (e :: es)) = '[' :: (serElems (e :: es) ++ [']']) from by
      simp [serVal]]
    simp only [needV, List.length_cons, List.length_append]
    omega
  | .jobj [] => by simp only [needV]; omega
  | .jobj (f1 :: fs) => by
    have h := needF_le (f1 :: fs)
    rw [show serVal (.jobj (f1 :: fs)) = '\x7b' :: (serFields (f1 :: fs) ++ ['\x7d']) from by
      simp [serVal]]
    simp only [needV, List.length_cons, List.length_append]
    omega

theorem needE_le : ∀ es : List JVal, needE es ≤ (serElems es).length + 2
  | [] => by simp only [needE]; omega
  | [e] => by
    have h := needV_le e
    rw [needE, needE]
    rw [show serElems [e] = serVal e from by simp [serElems]]
    have hm : max (needV e) 1 ≤ (serVal e).length + 1 := Nat.max_le.mpr ⟨h, by omega⟩
    omega
  | e :: e2 :: es => by
    have h1 := needV_le e
    have h2 := needE_le (e2 :: es)
    rw [needE]
    rw [show serElems (e :: e2 :: es) = serVal e ++ ',' :: serElems (e2 :: es) from by
      simp [serElems]]
    have hm : max (needV e) (needE (e2 :: es))
        ≤ (serVal e).length + (serElems (e2 :: es)).length + 2 :=
      Nat.max_le.mpr ⟨by omega, by omega⟩
    simp only [List.length_append, List.length_cons]
    omega

theorem needF_le : ∀ fs : List (String × JVal), needF fs ≤ (serFields fs).length + 2
  | [] => by simp only [needF]; omega
  | [(k, v)] => by
    have h := needV_le v
    rw [needF, needF]
    rw [show serFields [(k, v)] = serStr k ++ ':' :: serVal v from by simp [serFields]]
    have hm : max (needV v) 1 ≤ (serVal v).length + 1 := Nat.max_le.mpr ⟨h, by omega⟩
    simp only [List.length_append, List.length_cons]
    omega
  | (k, v) :: f2 :: fs => by
    have h1 := needV_le v
    have h2 := needF_le (f2 :: fs)
    rw [needF]
    rw [show serFields ((k, v) :: f2 :: fs)
        = serStr k ++ (':' :: serVal v ++ ',' :: serFields (f2 :: fs)) from by simp [serFields]]
    have hm : max (needV v) (needF (f2 :: fs))
        ≤ (serVal v).length + (serFields (f2 :: fs)).length + 2 :=
      Nat.max_le.mpr ⟨by omega, by omega⟩
    simp only [List.length_append, List.length_cons]
    omega

end

namespace JSON

/-- Model of `JSON.stringify` on JSON-representable values. -/
def stringify (v : JVal) : String := ⟨serVal v⟩

/-- Model of `JSON.parse`: reads one JSON value and requires the whole input
to be consumed. -/
def parse (s : String) : Option JVal :=
  match pVal (s.data.length + 1) s.data with
  | some (v, []) => some v
  | _ => none

/-- `JSON.parse` is a left inverse of `JSON.stringify`: echoing serialized
JSON back through the reader recovers the original value. -/
theorem parse_stringify (v : JVal) : JSON.parse (JSON.stringify v) = some v := by
  have h := rt_val v ((serVal v).length + 1) [] (needV_le v) rfl
  rw [List.append_nil] at h
  show (match pVal ((serVal v).length + 1) (serVal v) with
    | some (w, []) => some w
    | _ => none) = some v
  rw [h]

end JSON

/-! ## Header mappings and JS object operations -/

/-- JS `String.prototype.toUpperCase()` (ASCII), as an executable char map. -/
def jsToUpper (s : String) : String := ⟨s.data.map Char.toUpper⟩

/-- JS `String.prototype.toLowerCase()` (ASCII), as an executable char map. -/
def jsToLower (s : String) : String := ⟨s.data.map Char.toLower⟩

/-- Header mappings are association lists; `objSet` mirrors JS object key
assignment: an existing key keeps its position and gets the new value, a new
key is appended. -/
def objSet (m : List (String × String)) (k v : String) : List (String × String) :=
  match m with
  | [] => [(k, v)]
  | (k', v') :: rest => if k' = k then (k, v) :: rest else (k', v') :: objSet rest k v

/-- JS `delete obj[k]`. -/
def objDelete (m : List (String × String)) (k : String) : List (String × String) :=
  m.filter (fun kv => kv.1 ≠ k)

/-- JS object property read `obj[k]` (undefined when absent). -/
def hmGet (m : List (String × String)) (k : String) : Option String :=
  (m.find? (fun kv => kv.1 = k)).map (fun kv => kv.2)

/-- Case-insensitive response-header read, as `Headers.get` does (first
matching header; duplicate-header combining is not modelled). -/
def headerLookup (hs : List (String × String)) (name : String) : Option String :=
  (hs.find? (fun kv => jsToLower kv.1 = name)).map (fun kv => kv.2)

/-- The `for (keyAndValue of response.headers.entries()) headers[k] = v` loop
(request.js lines 146-148): entry names are lowercased by the fetch Headers
object, assignment is JS object assignment. -/
def collectMeta (hs : List (String × String)) : List (String × String) :=
  hs.foldl (fun acc kv => objSet acc (jsToLower kv.1) kv.2) []

/-- Substring test on character lists (used to model `/application\/json/`
style regular-expression tests, which are substring searches). -/
def listContainsSub (pat : List Char) : List Char → Bool
  | [] => pat.isEmpty
  | c :: rest => pat.isPrefixOf (c :: rest) || listContainsSub pat rest

/-- Substring test on strings. -/
def containsSub (pat s : String) : Bool := listContainsSub pat.data s.data

/-! ## Request descriptors (the `requestOptions` object) -/

/-- The body field of a request descriptor: absent (`undefined`), a string, or
a JSON-representable JS value (plain objects and arrays are the interesting
cases for the normalizer). -/
inductive Body where
  | undef
  | str (s : String)
  | jval (v : JVal)

/-- JS truthiness of a JSON-representable value. -/
def jsTruthy : JVal → Bool
  | .jnull => false
  | .jbool b => b
  | .jnum n => n != 0
  | .jstr s => s != ""
  | .jarr _ => true
  | .jobj _ => true

/-- JS truthiness of the `requestOptions.body` field (`if (requestOptions.body)`). -/
def truthyBody : Body → Bool
  | .undef => false
  | .str s => s != ""
  | .jval v => jsTruthy v

/-- `isPlainObject(body) || Array.isArray(body)` (request.js line 35). -/
def isPlainObjectOrArray : Body → Bool
  | .jval (.jobj _) => true
  | .jval (.jarr _) => true
  | _ => false

/-- The request descriptor (`requestOptions`). `url` is an `Option` because
the fetch 304 branch assigns `undefined` to it; `headers` is an `Option`
because a descriptor may carry no headers object at all. The unused `agent`
field is omitted (it is only forwarded by `pick`). -/
structure RequestOptions where
  url : Option String
  method : String
  headers : Option (List (String × String))
  body : Body
  xhr : Bool
  timeout : Option Nat

/-! ## The request normalizer (request.js lines 20-37) -/

/-- Lodash `defaults(requestOptions.headers, Ⓓ)` where Ⓓ carries the default
content-type (lines 20-24): when `headers` is an object, the key is filled
only if absent (key comparison is exact, hence case-sensitive); when
`headers` is `undefined`, lodash builds and returns a fresh object which the
code discards, so the descriptor keeps no headers. -/
def defaultsContentType : Option (List (String × String)) → Option (List (String × String))
  | none => none
  | some m =>
    if (hmGet m "content-type").isNone then
      some (m ++ [("content-type", "application/json; charset=utf-8")])
    else some m

/-- Normalizer step 1 (lines 20-24): default the content-type when a body is
present (JS truthiness). -/
def step1 (r : RequestOptions) : RequestOptions :=
  if truthyBody r.body then { r with headers := defaultsContentType r.headers } else r

/-- Normalizer step 2 (line 27): uppercase the method. -/
def step2 (r : RequestOptions) : RequestOptions :=
  { r with method := jsToUpper r.method }

/-- Normalizer step 3 (lines 31-33): PATCH/PUT with a falsy body get the
empty-string body. -/
def step3 (r : RequestOptions) : RequestOptions :=
  if (r.method = "PATCH" ∨ r.method = "PUT") ∧ ¬truthyBody r.body = true then
    { r with body := .str "" }
  else r

/-- Normalizer step 4 (lines 35-37): serialize a plain-object or array body
to JSON text. -/
def step4 (r : RequestOptions) : RequestOptions :=
  match r.body with
  | .jval (.jobj fs) => { r with body := .str (JSON.stringify (.jobj fs)) }
  | .jval (.jarr es) => { r with body := .str (JSON.stringify (.jarr es)) }
  | _ => r

/-- The whole normalizer (request.js lines 20-37), mutating `requestOptions`
before dispatch. -/
def normalizeOptions (r : RequestOptions) : RequestOptions :=
  step4 (step3 (step2 (step1 r)))

/-! ## Responses, outcomes and the error shape -/

/-- A raw HTTP response as delivered by the network: status, header list (in
wire order, possibly mixed-case names), body text. -/
structure RawResponse where
  status : Nat
  headers : List (String × String)
  body : String

/-- The single network event that settles an exchange. -/
inductive NetEvent where
  | response (resp : RawResponse)
  | netError (msg : String)
  | timeout

/-- The headers value carried by an error or a resolution. The legacy branch
can carry the raw unparsed header text (see `xhrSettle`), and its timeout
handler can fire before any headers exist (`undefined`). -/
inductive HeadersVal where
  | hmap (m : List (String × String))
  | blob (s : String)
  | undef

/-- Modelled from the spec: the ClassifiedError shape (`./http-error`, not
under src/) — a record `{message, statusCode, headers}`; the message argument
is coerced to a string as JS `Error` does (so `null` becomes `"null"`). -/
structure HttpError where
  message : String
  statusCode : Nat
  headers : HeadersVal

/-- A value thrown/rejected inside the promise chain: either an `HttpError`
or any other JS error, carried with its message. -/
inductive JsErr where
  | httpE (e : HttpError)
  | otherE (msg : String)

/-- Resolved response data: `undefined`, a JS value (JSON-parsed data or body
text), or a binary buffer. -/
inductive ResData where
  | undef
  | val (v : JVal)
  | buffer (bytes : String)

/-- Observable outcome of a call: the promise resolves, rejects (with an
`HttpError` or some other JS error, identified by name and message), or never
settles because an exception escaped an event callback. -/
inductive Outcome where
  | resolved (data : ResData) (meta : HeadersVal)
  | rejected (e : JsErr)
  | unsettled (msg : String)

/-- JS `String(x)` coercion of a nullable string (`null` prints as "null"). -/
def jsStringOf : Option String → String
  | none => "null"
  | some s => s

/-! ## The fetch strategy (request.js lines 140-191) -/

/-- Modelled from the spec: the binary-payload reader
(`./get-buffer-response`, not under src/) returns the raw response bytes as a
buffer. -/
def getBuffer (resp : RawResponse) : ResData := .buffer resp.body

/-- The `/application\/json/.test(contentType)` check (line 167): a substring
search; an absent header is `null`, which the regex coerces to the string
"null". -/
def ctTestJson (ct : Option String) : Bool :=
  containsSub "application/json" (jsStringOf ct)

/-- Executable string prefix test. -/
def strStartsWith (s pat : String) : Bool := pat.data.isPrefixOf s.data

/-- Executable string suffix test. -/
def strEndsWith (s pat : String) : Bool := pat.data.reverse.isPrefixOf s.data.reverse

/-- The `!contentType || /^text\/|charset=utf-8$/.test(contentType)` check
(line 171): an absent or empty content-type is falsy; otherwise the type must
start with `text/` or end with `charset=utf-8`. -/
def ctTestText (ct : Option String) : Bool :=
  match ct with
  | none => true
  | some s => s = "" || strStartsWith s "text/" || strEndsWith s "charset=utf-8"

/-- Model of the V8 SyntaxError message raised by `JSON.parse` on invalid
input (the exact wording is engine-dependent and never observable in the
claims). -/
def jsonSyntaxErrMsg : String := "Unexpected token in JSON"

/-- The response callback of the fetch branch (lines 143-176), returning the
mutated descriptor, the collected lowercase header mapping, and either the
value the `then` stage resolves with or the error it throws.

Note on line 154-156: `requestOptions.url = response.headers.location` reads
the (nonexistent) `location` property of the fetch `Headers` object — not
`headers.get('location')` — so the descriptor url becomes `undefined`. -/
def fetchStage1 (r : RequestOptions) (resp : RawResponse) :
    RequestOptions × List (String × String) × Except JsErr ResData :=
  let meta := collectMeta resp.headers
  let ct := headerLookup resp.headers "content-type"
  if resp.status = 204 then (r, meta, .ok .undef)
  else if resp.status = 304 then
    ({ r with url := none }, meta, .error (.httpE ⟨"Not modified", 304, .hmap meta⟩))
  else if 400 ≤ resp.status then
    (r, meta, .error (.httpE ⟨resp.body, resp.status, .hmap meta⟩))
  else if ctTestJson ct then
    match JSON.parse resp.body with
    | some v => (r, meta, .ok (.val v))
    | none => (r, meta, .error (.otherE jsonSyntaxErrMsg))
  else if ctTestText ct then (r, meta, .ok (.val (.jstr resp.body)))
  else (r, meta, .ok (getBuffer resp))

/-- The final `catch` of the fetch branch (lines 185-191): an `HttpError`
propagates unchanged, anything else is re-thrown as
`HttpError(error.message, 500, headers)` with the headers collected so far. -/
def wrapCatch (headersSoFar : List (String × String)) : JsErr → JsErr
  | .httpE e => .httpE e
  | .otherE msg => .httpE ⟨msg, 500, .hmap headersSoFar⟩

/-- The fetch branch (lines 140-191) as a function of the settling network
event. A network-level rejection reaches the catch before the response
callback ran, so the headers collected so far are `{}`; node-fetch reports a
timeout as an ordinary rejection, wrapped the same way. -/
def fetchDispatch (r : RequestOptions) (ev : NetEvent) : RequestOptions × Outcome :=
  match ev with
  | .netError msg => (r, .rejected (wrapCatch [] (.otherE msg)))
  | .timeout => (r, .rejected (wrapCatch [] (.otherE "network timeout")))
  | .response resp =>
    match fetchStage1 r resp with
    | (r', meta, .ok d) => (r', .resolved d (.hmap meta))
    | (r', meta, .error e) => (r', .rejected (wrapCatch meta e))

/-! ## The legacy (XHR) strategy (request.js lines 39-137) -/

/-- One header line of the raw `getAllResponseHeaders()` text, names as
received on the wire. -/
def headerLine (kv : String × String) : List Char :=
  kv.1.data ++ ':' :: ' ' :: kv.2.data

/-- The raw multi-line header text returned by `getAllResponseHeaders()`
(each line terminated by a newline; the carriage return of the CRLF wire form
is not modelled). -/
def xhrBlob : List (String × String) → List Char
  | [] => []
  | kv :: rest => headerLine kv ++ '\n' :: xhrBlob rest

/-- JS `String.prototype.split('\n')` on a character list. -/
def splitOnNL : List Char → List (List Char)
  | [] => [[]]
  | c :: rest =>
    if c = '\n' then [] :: splitOnNL rest
    else
      match splitOnNL rest with
      | [] => [[c]]
      | l :: ls => (c :: l) :: ls

/-- Matcher for the header-line regular expression `^([^:]+): (.*)` (line 66):
a nonempty colon-free name, the exact separator `: `, then the value. -/
def hlsAux : List Char → List Char → Option (String × String)
  | [], _ => none
  | c :: rest, acc =>
    if c = ':' then
      match rest with
      | ' ' :: v => if acc.isEmpty then none else some (⟨acc.reverse⟩, ⟨v⟩)
      | _ => none
    else hlsAux rest (c :: acc)

/-- Split of one header line into name and value per the regexp. -/
def headerLineSplit (line : List Char) : Option (String × String) :=
  hlsAux line []

/-- `parseXhrHeaders` (lines 64-76): split the blob on newlines, keep the
lines the regexp matches, and assign `headers[name.toLowerCase()] = value`. -/
def parseXhrHeaders (blob : List Char) : List (String × String) :=
  (splitOnNL blob).foldl
    (fun acc line =>
      match headerLineSplit line with
      | some (n, v) => objSet acc (jsToLower n) v
      | none => acc)
    []

/-- The `responseHeaders` variable after the guard at lines 79-81: the parsed
mapping when the REQUEST carried a headers object, otherwise the raw blob
string is kept. -/
inductive XhrRespHeaders where
  | hmap (m : List (String × String))
  | blob (s : List Char)

/-- The headers value an `HttpError` receives from the legacy branch. -/
def headersValOf : XhrRespHeaders → HeadersVal
  | .hmap m => .hmap m
  | .blob s => .blob ⟨s⟩

/-- The `/application\/json/.test(responseHeaders['content-type'])` check at
line 100. String-indexing a string value yields `undefined`, which the regex
coerces to "undefined"; on a mapping an absent key is likewise `undefined`. -/
def ctJsonXhr : XhrRespHeaders → Bool
  | .blob _ => containsSub "application/json" "undefined"
  | .hmap m =>
    containsSub "application/json"
      (match hmGet m "content-type" with
       | none => "undefined"
       | some s => s)

/-- Lines 88-110 of the ready-state callback, after the redirect handling:
extract the body, classify error statuses, and react to the content-type.

`responseBody` is `null` for an empty body (`xhr.response` is falsy, the
default responseType makes `responseText || responseXML` evaluate to `null`).
`JSON.parse(null)` coerces to the string "null"; a parse failure is an
exception inside the event callback, so the promise never settles. Any
non-JSON content-type evaluates line 105, which references `contentType` — a
variable that exists only inside the fetch branch's response callback — so a
`ReferenceError` escapes and the promise never settles. -/
def xhrBody (r : RequestOptions) (resp : RawResponse) (rh : XhrRespHeaders) :
    RequestOptions × Outcome :=
  let responseBody : Option String := if resp.body = "" then none else some resp.body
  if (400 ≤ resp.status ∧ resp.status < 600) ∨ resp.status < 10 then
    (r, .rejected (.httpE ⟨jsStringOf responseBody, resp.status, headersValOf rh⟩))
  else if ctJsonXhr rh then
    match JSON.parse (jsStringOf responseBody) with
    | some v => (r, .resolved (.val v) (headersValOf rh))
    | none => (r, .unsettled "SyntaxError: unexpected token in JSON")
  else (r, .unsettled "ReferenceError: contentType is not defined")

/-- The settling of the legacy branch (lines 46-129) as a function of the
network event.

* ready-state completion: parse or keep the raw header text (lines 78-81);
  for a 300-399 status the redirect handling runs first (lines 83-86) —
  `'location' in responseHeaders` throws a `TypeError` when
  `responseHeaders` is the raw string, and when a `location` header exists
  the update calls `Url.resolve`, but `Url` is bound nowhere in the module,
  so a `ReferenceError` escapes; either way the promise never settles.
* `onerror` rejects with the raw transport error (line 113-115).
* `ontimeout` rejects with `HttpError('Gateway timeout', 504,
  responseHeaders)` where `responseHeaders` is still `undefined` (line 44). -/
def xhrSettle (r : RequestOptions) (ev : NetEvent) : RequestOptions × Outcome :=
  match ev with
  | .netError msg => (r, .rejected (.otherE msg))
  | .timeout => (r, .rejected (.httpE ⟨"Gateway timeout", 504, .undef⟩))
  | .response resp =>
    let rh : XhrRespHeaders :=
      if r.headers.isSome then .hmap (parseXhrHeaders (xhrBlob resp.headers))
      else .blob (xhrBlob resp.headers)
    if 300 ≤ resp.status ∧ resp.status ≤ 399 then
      match rh with
      | .blob _ =>
        (r, .unsettled "TypeError: cannot use the in operator to search in a string")
      | .hmap m =>
        if (hmGet m "location").isSome then
          (r, .unsettled "ReferenceError: Url is not defined")
        else xhrBody r resp rh
    else xhrBody r resp rh

/-- The legacy branch as a whole: the promise settles per `xhrSettle`, the
`then` stage (lines 124-129) shapes a resolution into `{data, meta}`, and the
`catch` (lines 131-137) re-throws. For a non-`HttpError` rejection the catch
evaluates `headers` (line 136) — but that binding, introduced by `let` at
line 140, is never initialized on this path because the function returned at
line 46 — so the temporal-dead-zone `ReferenceError` becomes the rejection
value instead of the intended 500 wrap. -/
def xhrDispatch (r : RequestOptions) (ev : NetEvent) : RequestOptions × Outcome :=
  match xhrSettle r ev with
  | (r', .rejected (.httpE e)) => (r', .rejected (.httpE e))
  | (r', .rejected (.otherE _)) =>
    (r', .rejected (.otherE "ReferenceError: cannot access headers before initialization"))
  | (r', o) => (r', o)

/-! ## The whole `request` function -/

/-- `request(requestOptions)` (request.js lines 15-192) as a function of the
descriptor and the settling network event: normalize the descriptor, then
dispatch on the `xhr` flag; the legacy branch first deletes a `user-agent`
request header when a headers object exists (lines 40-42). The returned pair
is the descriptor after its in-place mutations together with the observable
outcome. -/
def request (r0 : RequestOptions) (ev : NetEvent) : RequestOptions × Outcome :=
  let r := normalizeOptions r0
  if r.xhr then
    xhrDispatch { r with headers := r.headers.map (fun m => objDelete m "user-agent") } ev
  else fetchDispatch r ev

/-! ## Well-formed wire headers and the agreement of the two header paths -/

/-- A header as it can actually occur on the wire: nonempty name without
colon or newline, value without newline. -/
def wfHeader (kv : String × String) : Prop :=
  kv.1 ≠ "" ∧ ':' ∉ kv.1.data ∧ '\n' ∉ kv.1.data ∧ '\n' ∉ kv.2.data

instance (kv : String × String) : Decidable (wfHeader kv) := by
  unfold wfHeader; infer_instance

theorem splitOnNL_append (l r : List Char) (hl : '\n' ∉ l) :
    splitOnNL (l ++ '\n' :: r) = l :: splitOnNL r := by
  induction l with
  | nil => simp [splitOnNL]
  | cons c t ih =>
    have hc : ¬c = '\n' := fun h => hl (by simp [h])
    show splitOnNL (c :: (t ++ '\n' :: r)) = (c :: t) :: splitOnNL r
    simp only [splitOnNL, hc, ite_false, if_false]
    rw [ih (fun h => hl (List.mem_cons_of_mem _ h))]

theorem hlsAux_split (nd : List Char) : ∀ (acc vd : List Char), (∀ c ∈ nd, c ≠ ':') →
    hlsAux (nd ++ ':' :: ' ' :: vd) acc
      = if acc = [] ∧ nd = [] then none else some (⟨acc.reverse ++ nd⟩, ⟨vd⟩) := by
  induction nd with
  | nil =>
    intro acc vd _
    by_cases hacc : acc = []
    · simp [hlsAux, hacc]
    · simp [hlsAux, hacc]
  | cons c t ih =>
    intro acc vd h
    have hc : ¬c = ':' := h c (by simp)
    show hlsAux (c :: (t ++ ':' :: ' ' :: vd)) acc = _
    simp only [hlsAux, hc, ite_false, if_false]
    rw [ih (c :: acc) vd (fun x hx => h x (by simp [hx]))]
    simp [List.append_assoc]

theorem headerLineSplit_line (kv : String × String) (h : wfHeader kv) :
    headerLineSplit (headerLine kv) = some (kv.1, kv.2) := by
  obtain ⟨h1, h2, _, _⟩ := h
  unfold headerLineSplit headerLine
  rw [hlsAux_split kv.1.data [] kv.2.data (fun c hc he => h2 (he ▸ hc))]
  have hne : ¬kv.1.data = [] := by
    intro he
    exact h1 (by rw [show kv.1 = (⟨kv.1.data⟩ : String) from rfl, he])
  simp [hne]

theorem parseXhr_collect (hs : List (String × String)) (hwf : ∀ kv ∈ hs, wfHeader kv) :
    parseXhrHeaders (xhrBlob hs) = collectMeta hs := by
  suffices h : ∀ acc, (splitOnNL (xhrBlob hs)).foldl
      (fun acc line =>
        match headerLineSplit line with
        | some (n, v) => objSet acc (jsToLower n) v
        | none => acc) acc
      = hs.foldl (fun acc kv => objSet acc (jsToLower kv.1) kv.2) acc by
    exact h []
  induction hs with
  | nil => intro acc; simp [xhrBlob, splitOnNL, headerLineSplit, hlsAux]
  | cons kv rest ih =>
    intro acc
    obtain ⟨_, _, h3, h4⟩ := hwf kv (by simp)
    have hnl : '\n' ∉ headerLine kv := by
      intro hmem
      unfold headerLine at hmem
      rcases List.mem_append.mp hmem with hm | hm
      · exact h3 hm
      · simp only [List.mem_cons] at hm
        rcases hm with hm | hm | hm
        · exact absurd hm (by decide)
        · exact absurd hm (by decide)
        · exact h4 hm
    rw [show xhrBlob (kv :: rest) = headerLine kv ++ '\n' :: xhrBlob rest from by
      simp [xhrBlob]]
    rw [splitOnNL_append _ _ hnl]
    simp only [List.foldl_cons, headerLineSplit_line kv (hwf kv (by simp))]
    exact ih (fun x hx => hwf x (by simp [hx])) _

/-! ## Normalizer structure lemmas -/

theorem step1_preserves (r : RequestOptions) :
    (step1 r).method = r.method ∧ (step1 r).xhr = r.xhr ∧ (step1 r).body = r.body ∧
      (step1 r).url = r.url := by
  unfold step1; split <;> exact ⟨rfl, rfl, rfl, rfl⟩

theorem step2_preserves (r : RequestOptions) :
    (step2 r).headers = r.headers ∧ (step2 r).xhr = r.xhr ∧ (step2 r).body = r.body ∧
      (step2 r).url = r.url :=
  ⟨rfl, rfl, rfl, rfl⟩

theorem step3_preserves (r : RequestOptions) :
    (step3 r).headers = r.headers ∧ (step3 r).xhr = r.xhr ∧ (step3 r).method = r.method ∧
      (step3 r).url = r.url := by
  unfold step3; split <;> exact ⟨rfl, rfl, rfl, rfl⟩

theorem step4_preserves (r : RequestOptions) :
    (step4 r).headers = r.headers ∧ (step4 r).xhr = r.xhr ∧ (step4 r).method = r.method ∧
      (step4 r).url = r.url := by
  unfold step4; split <;> exact ⟨rfl, rfl, rfl, rfl⟩

theorem normalize_headers (r : RequestOptions) :
    (normalizeOptions r).headers
      = (if truthyBody r.body then defaultsContentType r.headers else r.headers) := by
  unfold normalizeOptions
  rw [(step4_preserves _).1, (step3_preserves _).1, (step2_preserves _).1]
  unfold step1
  split <;> simp_all

theorem normalize_xhr (r : RequestOptions) : (normalizeOptions r).xhr = r.xhr := by
  unfold normalizeOptions
  rw [(step4_preserves _).2.1, (step3_preserves _).2.1, (step2_preserves _).2.1,
    (step1_preserves _).2.1]

theorem normalize_url (r : RequestOptions) : (normalizeOptions r).url = r.url := by
  unfold normalizeOptions
  rw [(step4_preserves _).2.2.2, (step3_preserves _).2.2.2, (step2_preserves _).2.2.2,
    (step1_preserves _).2.2.2]

theorem normalize_method (r : RequestOptions) :
    (normalizeOptions r).method = jsToUpper r.method := by
  unfold normalizeOptions
  rw [(step4_preserves _).2.2.1, (step3_preserves _).2.2.1]
  unfold step2
  rw [(step1_preserves _).1]

theorem defaultsContentType_isSome (h : Option (List (String × String))) :
    (defaultsContentType h).isSome = h.isSome := by
  cases h with
  | none => rfl
  | some m =>
    simp only [defaultsContentType]
    split <;> rfl

theorem normalize_headers_isSome (r : RequestOptions) :
    (normalizeOptions r).headers.isSome = r.headers.isSome := by
  rw [normalize_headers]
  split
  · exact defaultsContentType_isSome _
  · rfl

theorem step3_truthy (r : RequestOptions) (h : truthyBody r.body = true) : step3 r = r := by
  unfold step3
  rw [if_neg]
  rintro ⟨-, hn⟩
  exact hn h

/-! ## Dispatch characterizations -/

theorem request_fetch (r : RequestOptions) (ev : NetEvent) (h : r.xhr = false) :
    request r ev = fetchDispatch (normalizeOptions r) ev := by
  unfold request
  simp [normalize_xhr, h]

theorem request_xhr (r : RequestOptions) (ev : NetEvent) (h : r.xhr = true) :
    request r ev = xhrDispatch
      { normalizeOptions r with
        headers := (normalizeOptions r).headers.map (fun m => objDelete m "user-agent") } ev := by
  unfold request
  simp [normalize_xhr, h]

theorem fetch_response_204 (r : RequestOptions) (resp : RawResponse) (h : resp.status = 204) :
    fetchDispatch r (.response resp)
      = (r, .resolved .undef (.hmap (collectMeta resp.headers))) := by
  unfold fetchDispatch fetchStage1
  simp [h]

theorem fetch_response_304 (r : RequestOptions) (resp : RawResponse) (h : resp.status = 304) :
    fetchDispatch r (.response resp)
      = ({ r with url := none },
        .rejected (.httpE ⟨"Not modified", 304, .hmap (collectMeta resp.headers)⟩)) := by
  unfold fetchDispatch fetchStage1
  simp [h, wrapCatch]

theorem fetch_response_error (r : RequestOptions) (resp : RawResponse) (h : 400 ≤ resp.status) :
    fetchDispatch r (.response resp)
      = (r, .rejected (.httpE ⟨resp.body, resp.status, .hmap (collectMeta resp.headers)⟩)) := by
  have h204 : ¬resp.status = 204 := by omega
  have h304 : ¬resp.status = 304 := by omega
  unfold fetchDispatch fetchStage1
  simp [h204, h304, h, wrapCatch]

theorem fetch_response_json (r : RequestOptions) (resp : RawResponse) (v : JVal)
    (h204 : ¬resp.status = 204) (h304 : ¬resp.status = 304) (h400 : resp.status < 400)
    (hj : ctTestJson (headerLookup resp.headers "content-type") = true)
    (hp : JSON.parse resp.body = some v) :
    fetchDispatch r (.response resp)
      = (r, .resolved (.val v) (.hmap (collectMeta resp.headers))) := by
  have h400' : ¬400 ≤ resp.status := by omega
  unfold fetchDispatch fetchStage1
  simp [h204, h304, h400', hj, hp]

theorem fetch_response_json_bad (r : RequestOptions) (resp : RawResponse)
    (h204 : ¬resp.status = 204) (h304 : ¬resp.status = 304) (h400 : resp.status < 400)
    (hj : ctTestJson (headerLookup resp.headers "content-type") = true)
    (hp : JSON.parse resp.body = none) :
    fetchDispatch r (.response resp)
      = (r, .rejected (.httpE ⟨jsonSyntaxErrMsg, 500, .hmap (collectMeta resp.headers)⟩)) := by
  have h400' : ¬400 ≤ resp.status := by omega
  unfold fetchDispatch fetchStage1
  simp [h204, h304, h400', hj, hp, wrapCatch]

theorem fetch_response_text (r : RequestOptions) (resp : RawResponse)
    (h204 : ¬resp.status = 204) (h304 : ¬resp.status = 304) (h400 : resp.status < 400)
    (hj : ctTestJson (headerLookup resp.headers "content-type") = false)
    (ht : ctTestText (headerLookup resp.headers "content-type") = true) :
    fetchDispatch r (.response resp)
      = (r, .resolved (.val (.jstr resp.body)) (.hmap (collectMeta resp.headers))) := by
  have h400' : ¬400 ≤ resp.status := by omega
  unfold fetchDispatch fetchStage1
  simp [h204, h304, h400', hj, ht]

theorem fetch_response_buffer (r : RequestOptions) (resp : RawResponse)
    (h204 : ¬resp.status = 204) (h304 : ¬resp.status = 304) (h400 : resp.status < 400)
    (hj : ctTestJson (headerLookup resp.headers "content-type") = false)
    (ht : ctTestText (headerLookup resp.headers "content-type") = false) :
    fetchDispatch r (.response resp)
      = (r, .resolved (.buffer resp.body) (.hmap (collectMeta resp.headers))) := by
  have h400' : ¬400 ≤ resp.status := by omega
  unfold fetchDispatch fetchStage1
  simp [h204, h304, h400', hj, ht, getBuffer]

theorem xhr_settle_nonredirect (r : RequestOptions) (resp : RawResponse)
    (hh : r.headers.isSome = true) (hnr : ¬(300 ≤ resp.status ∧ resp.status ≤ 399)) :
    xhrSettle r (.response resp)
      = xhrBody r resp (.hmap (parseXhrHeaders (xhrBlob resp.headers))) := by
  unfold xhrSettle
  simp [hh, hnr]

theorem xhr_error_status (r : RequestOptions) (resp : RawResponse)
    (hh : r.headers.isSome = true) (hwf : ∀ kv ∈ resp.headers, wfHeader kv)
    (hst : (400 ≤ resp.status ∧ resp.status < 600) ∨ resp.status < 10) :
    xhrDispatch r (.response resp)
      = (r, .rejected (.httpE ⟨(if resp.body = "" then "null" else resp.body), resp.status,
          .hmap (collectMeta resp.headers)⟩)) := by
  have hnr : ¬(300 ≤ resp.status ∧ resp.status ≤ 399) := by omega
  unfold xhrDispatch
  rw [xhr_settle_nonredirect r resp hh hnr, parseXhr_collect resp.headers hwf]
  unfold xhrBody
  rw [if_pos hst]
  by_cases hb : resp.body = ""
  · simp [hb, jsStringOf, headersValOf]
  · simp [hb, jsStringOf, headersValOf]

theorem xhr_json_unsettled (r : RequestOptions) (resp : RawResponse)
    (hh : r.headers.isSome = true)
    (hnr : ¬(300 ≤ resp.status ∧ resp.status ≤ 399))
    (hst : ¬((400 ≤ resp.status ∧ resp.status < 600) ∨ resp.status < 10))
    (hj : ctJsonXhr (.hmap (parseXhrHeaders (xhrBlob resp.headers))) = true)
    (hb : resp.body ≠ "") (hp : JSON.parse resp.body = none) :
    xhrDispatch r (.response resp)
      = (r, .unsettled "SyntaxError: unexpected token in JSON") := by
  unfold xhrDispatch
  rw [xhr_settle_nonredirect r resp hh hnr]
  unfold xhrBody
  rw [if_neg hst, if_pos hj]
  simp [hb, jsStringOf, hp]

theorem headers_isSome_after_delete (r : RequestOptions) :
    ({ normalizeOptions r with
        headers := (normalizeOptions r).headers.map (fun m => objDelete m "user-agent")
      } : RequestOptions).headers.isSome = r.headers.isSome := by
  show ((normalizeOptions r).headers.map (fun m => objDelete m "user-agent")).isSome
      = r.headers.isSome
  rw [← normalize_headers_isSome r]
  cases (normalizeOptions r).headers <;> rfl

/-! ## Claims -/

/-- C1 (counterexample): the two transport strategies are not equivalent. On
the same raw response — status 200, content-type `text/plain`, body "hi" —
the fetch strategy resolves with the body text while the legacy strategy
never settles (line 105 references `contentType`, a variable that only
exists inside the fetch branch). -/
theorem c1_counterexample :
    (request ⟨some "https://api.test/x", "GET", some [("accept", "*")], .undef, false, none⟩
        (.response ⟨200, [("content-type", "text/plain")], "hi"⟩)).2
      = .resolved (.val (.jstr "hi")) (.hmap [("content-type", "text/plain")])
    ∧ (request ⟨some "https://api.test/x", "GET", some [("accept", "*")], .undef, true, none⟩
        (.response ⟨200, [("content-type", "text/plain")], "hi"⟩)).2
      = .unsettled "ReferenceError: contentType is not defined"
    ∧ (Outcome.resolved (.val (.jstr "hi")) (.hmap [("content-type", "text/plain")])
        ≠ .unsettled "ReferenceError: contentType is not defined") :=
  ⟨rfl, rfl, fun h => Outcome.noConfusion h⟩

/-- C1 (amended): parity does hold on the error statuses. For every response
with status in [400,599] and a nonempty body, when the legacy descriptor
carries a headers mapping and the response headers are wire-well-formed with
case-insensitively distinct names (real fetch combines duplicates, which
this model does not track), both strategies reject with the same
ClassifiedError: message = body text, statusCode = status, headers = the
lowercase-keyed header mapping. -/
theorem c1_error_parity (r1 r2 : RequestOptions) (resp : RawResponse)
    (hx1 : r1.xhr = false) (hx2 : r2.xhr = true) (hh : r2.headers.isSome = true)
    (hwf : ∀ kv ∈ resp.headers, wfHeader kv)
    (hdup : resp.headers.Pairwise (fun a b => jsToLower a.1 ≠ jsToLower b.1))
    (hlo : 400 ≤ resp.status) (hhi : resp.status ≤ 599) (hb : resp.body ≠ "") :
    (request r1 (.response resp)).2
        = .rejected (.httpE ⟨resp.body, resp.status, .hmap (collectMeta resp.headers)⟩)
    ∧ (request r2 (.response resp)).2
        = .rejected (.httpE ⟨resp.body, resp.status, .hmap (collectMeta resp.headers)⟩) := by
  constructor
  · rw [request_fetch _ _ hx1, fetch_response_error _ _ hlo]
  · rw [request_xhr _ _ hx2,
      xhr_error_status _ _ (by rw [headers_isSome_after_delete]; exact hh) hwf
        (Or.inl ⟨hlo, by omega⟩)]
    simp [hb]

/-- C1 (witness): the parity theorem at a concrete 503 exchange. -/
theorem c1_witness :
    (request ⟨some "https://api.test/x", "GET", some [], .undef, false, none⟩
        (.response ⟨503, [("Retry-After", "120")], "unavailable"⟩)).2
      = .rejected (.httpE ⟨"unavailable", 503, .hmap [("retry-after", "120")]⟩)
    ∧ (request ⟨some "https://api.test/x", "GET", some [("user-agent", "octokit")], .undef,
        true, none⟩
        (.response ⟨503, [("Retry-After", "120")], "unavailable"⟩)).2
      = .rejected (.httpE ⟨"unavailable", 503, .hmap [("retry-after", "120")]⟩) :=
  c1_error_parity _ _ _ rfl rfl rfl (by decide) (by decide) (by decide) (by decide) (by decide)

/-- C2 (counterexample): the claimed error shape fails in the legacy strategy
when the request descriptor has no headers mapping: response headers are then
never parsed (lines 79-81 guard the parse on the REQUEST headers), so the
rejected ClassifiedError carries the raw unparsed header text instead of the
lowercase-keyed mapping. -/
theorem c2_counterexample :
    (request ⟨some "https://api.test/x", "GET", none, .undef, true, none⟩
        (.response ⟨404, [("X-Req", "a")], "nope"⟩)).2
      = .rejected (.httpE ⟨"nope", 404, .blob "X-Req: a\n"⟩)
    ∧ HeadersVal.blob "X-Req: a\n" ≠ HeadersVal.hmap [("x-req", "a")] :=
  ⟨rfl, fun h => HeadersVal.noConfusion h⟩

/-- C2 (amended): in the fetch strategy every response with status ≥ 400
rejects with ClassifiedError(bodyText, status, lowercase header map). In the
legacy strategy, for status in [400,599] or status < 10, when the descriptor
carries a headers mapping and the response headers are wire-well-formed, the
call rejects with statusCode = status, the lowercase header mapping, and the
body text as message — except that an empty body surfaces as the string
"null" (the body extraction of lines 88-93 yields `null` there). -/
theorem c2_error_shape :
    (∀ (r : RequestOptions) (resp : RawResponse), r.xhr = false → 400 ≤ resp.status →
      (request r (.response resp)).2
        = .rejected (.httpE ⟨resp.body, resp.status, .hmap (collectMeta resp.headers)⟩))
    ∧ (∀ (r : RequestOptions) (resp : RawResponse), r.xhr = true →
      r.headers.isSome = true → (∀ kv ∈ resp.headers, wfHeader kv) →
      ((400 ≤ resp.status ∧ resp.status < 600) ∨ resp.status < 10) →
      (request r (.response resp)).2
        = .rejected (.httpE ⟨(if resp.body = "" then "null" else resp.body), resp.status,
            .hmap (collectMeta resp.headers)⟩)) := by
  constructor
  · intro r resp hx h400
    rw [request_fetch _ _ hx, fetch_response_error _ _ h400]
  · intro r resp hx hh hwf hst
    rw [request_xhr _ _ hx,
      xhr_error_status _ _ (by rw [headers_isSome_after_delete]; exact hh) hwf hst]

/-- C2 (witness): the amended error shape at concrete 500/502 exchanges,
including the empty-body "null" message in the legacy strategy. -/
theorem c2_witness :
    (request ⟨some "https://api.test/x", "GET", some [], .undef, false, none⟩
        (.response ⟨500, [("A", "b")], "oops"⟩)).2
      = .rejected (.httpE ⟨"oops", 500, .hmap [("a", "b")]⟩)
    ∧ (request ⟨some "https://api.test/x", "GET", some [("accept", "*")], .undef, true, none⟩
        (.response ⟨502, [("A", "b")], ""⟩)).2
      = .rejected (.httpE ⟨"null", 502, .hmap [("a", "b")]⟩) :=
  ⟨c2_error_shape.1 _ _ rfl (by decide),
   c2_error_shape.2 _ _ rfl rfl (by decide) (Or.inl (by decide))⟩

/-- C3 (code bug): on a fetch 304 the call does reject with
ClassifiedError("Not modified", 304, meta), but the descriptor's url is set
to `undefined` — line 155 reads the nonexistent `.location` property of the
fetch Headers object instead of calling `.get('location')` — so the url is
NOT updated to the `location` response header value. -/
theorem c3_code_evaluation :
    request ⟨some "https://api.test/old", "GET", some [], .undef, false, none⟩
        (.response ⟨304, [("location", "/new/path")], ""⟩)
      = (⟨none, "GET", some [], .undef, false, none⟩,
        .rejected (.httpE ⟨"Not modified", 304, .hmap [("location", "/new/path")]⟩))
    ∧ (none : Option String) ≠ some "/new/path" :=
  ⟨rfl, fun h => Option.noConfusion h⟩

/-- C4 (code bug): the error funnel is broken in the legacy branch. A
transport error (onerror) reaches the catch at lines 131-137, which is
exactly the claimed re-wrapping step — but evaluating `headers` there throws
a ReferenceError (the binding of line 140 is never initialized on the xhr
path, which returned at line 46), so the call rejects with that
ReferenceError instead of ClassifiedError(message, 500, headers). A JSON
parse failure in the ready-state callback is worse: the exception escapes
the event handler and the promise never settles, silently swallowing the
error. -/
theorem c4_code_evaluation :
    (request ⟨some "https://api.test/x", "GET", some [("accept", "*")], .undef, true, none⟩
        (.netError "socket hang up")).2
      = .rejected (.otherE "ReferenceError: cannot access headers before initialization")
    ∧ (request ⟨some "https://api.test/x", "GET", some [("accept", "*")], .undef, true, none⟩
        (.response ⟨200, [("content-type", "application/json")], "["⟩)).2
      = .unsettled "SyntaxError: unexpected token in JSON" := by
  constructor
  · rfl
  · rw [request_xhr _ _ rfl]
    rw [xhr_json_unsettled _ ⟨200, [("content-type", "application/json")], "["⟩
      (by simp [headers_isSome_after_delete, normalize_headers_isSome]) (by decide) (by decide)
      rfl (by decide) (by simp [JSON.parse, pVal, pArr, pElems])]

/-- C5: in the fetch strategy (the strategy all of this claim's code sources
point at), a status-204 response resolves with `data = undefined` for every
response body whatsoever — so no body parsing can be involved — and
conversely a resolution with `undefined` data only arises from status 204. -/
theorem c5_undefined_iff_204 :
    (∀ (r : RequestOptions) (resp : RawResponse), r.xhr = false → resp.status = 204 →
      (request r (.response resp)).2 = .resolved .undef (.hmap (collectMeta resp.headers)))
    ∧ (∀ (r : RequestOptions) (resp : RawResponse) (m : HeadersVal), r.xhr = false →
      (request r (.response resp)).2 = .resolved .undef m → resp.status = 204) := by
  constructor
  · intro r resp hx h204
    rw [request_fetch _ _ hx, fetch_response_204 _ _ h204]
  · intro r resp m hx hres
    rw [request_fetch _ _ hx] at hres
    by_contra h204
    by_cases h304 : resp.status = 304
    · rw [fetch_response_304 _ _ h304] at hres
      simp at hres
    · by_cases h400 : 400 ≤ resp.status
      · rw [fetch_response_error _ _ h400] at hres
        simp at hres
      · push_neg at h400
        by_cases hj : ctTestJson (headerLookup resp.headers "content-type") = true
        · cases hp : JSON.parse resp.body with
          | some v =>
            rw [fetch_response_json _ _ v h204 h304 h400 hj hp] at hres
            simp at hres
          | none =>
            rw [fetch_response_json_bad _ _ h204 h304 h400 hj hp] at hres
            simp at hres
        · rw [Bool.not_eq_true] at hj
          by_cases ht : ctTestText (headerLookup resp.headers "content-type") = true
          · rw [fetch_response_text _ _ h204 h304 h400 hj ht] at hres
            simp at hres
          · rw [Bool.not_eq_true] at ht
            rw [fetch_response_buffer _ _ h204 h304 h400 hj ht] at hres
            simp at hres

/-- C5 (witness): a 204 with a deliberately unparseable body still resolves
with undefined data and the collected headers. -/
theorem c5_witness :
    (request ⟨some "https://api.test/x", "GET", some [], .undef, false, none⟩
        (.response ⟨204, [("X-RateLimit", "5000")], "this ( is not json"⟩)).2
      = .resolved .undef (.hmap [("x-ratelimit", "5000")]) :=
  c5_undefined_iff_204.1 _ _ rfl rfl

/-- C6 (counterexample): the claimed content-type dispatch fails in the legacy
strategy: a successful `text/plain` response never produces text data — line
105 references the undefined variable `contentType`, so the call never
settles — where the claim requires the unparsed body text. -/
theorem c6_counterexample :
    (request ⟨some "https://api.test/x", "GET", some [("a", "b")], .undef, true, none⟩
        (.response ⟨200, [("Content-Type", "text/plain")], "plain text"⟩)).2
      = .unsettled "ReferenceError: contentType is not defined"
    ∧ (Outcome.unsettled "ReferenceError: contentType is not defined"
        ≠ .resolved (.val (.jstr "plain text")) (.hmap [("content-type", "text/plain")])) :=
  ⟨rfl, fun h => Outcome.noConfusion h⟩

/-- C6 (amended): in the fetch strategy, for every response whose status is
not 204, not 304 and below 400, the data is determined by the content-type:
a type containing `application/json` parses the body as JSON (resolving with
exactly `JSON.parse` of the body text, or rejecting with status 500 when it
does not parse); an absent or empty type, a type starting with `text/`, or a
type ending with `charset=utf-8` yields the unparsed body text; anything
else yields the raw byte buffer. (In the legacy strategy only the JSON
clause ever yields data; any other content-type never settles, and a binary
payload was in any case to be rejected as unsupported, line 110.) -/
theorem c6_content_type_dispatch (r : RequestOptions) (resp : RawResponse)
    (hx : r.xhr = false) (h204 : ¬resp.status = 204) (h304 : ¬resp.status = 304)
    (h400 : resp.status < 400) :
    (∀ v, ctTestJson (headerLookup resp.headers "content-type") = true →
      JSON.parse resp.body = some v →
      (request r (.response resp)).2 = .resolved (.val v) (.hmap (collectMeta resp.headers)))
    ∧ (ctTestJson (headerLookup resp.headers "content-type") = true →
      JSON.parse resp.body = none →
      (request r (.response resp)).2
        = .rejected (.httpE ⟨jsonSyntaxErrMsg, 500, .hmap (collectMeta resp.headers)⟩))
    ∧ (ctTestJson (headerLookup resp.headers "content-type") = false →
      ctTestText (headerLookup resp.headers "content-type") = true →
      (request r (.response resp)).2
        = .resolved (.val (.jstr resp.body)) (.hmap (collectMeta resp.headers)))
    ∧ (ctTestJson (headerLookup resp.headers "content-type") = false →
      ctTestText (headerLookup resp.headers "content-type") = false →
      (request r (.response resp)).2
        = .resolved (.buffer resp.body) (.hmap (collectMeta resp.headers))) := by
  refine ⟨?_, ?_, ?_, ?_⟩
  · intro v hj hp
    rw [request_fetch _ _ hx, fetch_response_json _ _ v h204 h304 h400 hj hp]
  · intro hj hp
    rw [request_fetch _ _ hx, fetch_response_json_bad _ _ h204 h304 h400 hj hp]
  · intro hj ht
    rw [request_fetch _ _ hx, fetch_response_text _ _ h204 h304 h400 hj ht]
  · intro hj ht
    rw [request_fetch _ _ hx, fetch_response_buffer _ _ h204 h304 h400 hj ht]

/-- C6 (witness): the JSON clause at a concrete exchange whose body is the
serialization of an object. -/
theorem c6_witness :
    (request ⟨some "https://api.test/x", "GET", some [], .undef, false, none⟩
        (.response ⟨200, [("Content-Type", "application/json; charset=utf-8")],
          JSON.stringify (.jobj [("ok", .jbool true)])⟩)).2
      = .resolved (.val (.jobj [("ok", .jbool true)]))
          (.hmap [("content-type", "application/json; charset=utf-8")]) :=
  (c6_content_type_dispatch _ _ rfl (by decide) (by decide) (by decide)).1 _ rfl
    (JSON.parse_stringify _)

/-- C7: when a (truthy) body is present and the existing headers mapping has
no `content-type` key, the normalizer appends the default
`application/json; charset=utf-8` entry; when the caller supplied any
`content-type`, the headers are left entirely untouched. -/
theorem c7_content_type_default (r : RequestOptions) (m : List (String × String))
    (hb : truthyBody r.body = true) (hh : r.headers = some m) :
    (hmGet m "content-type" = none →
      (normalizeOptions r).headers
        = some (m ++ [("content-type", "application/json; charset=utf-8")]))
    ∧ (∀ ct, hmGet m "content-type" = some ct → (normalizeOptions r).headers = some m) := by
  have hn := normalize_headers r
  rw [if_pos hb, hh] at hn
  constructor
  · intro hct
    rw [hn]
    simp [defaultsContentType, hct]
  · intro ct hct
    rw [hn]
    simp [defaultsContentType, hct]

/-- C7 (witness): the defaulting and the no-override case at concrete
descriptors. -/
theorem c7_witness :
    (normalizeOptions ⟨some "https://api.test/x", "POST", some [("accept", "*")], .str "x",
        false, none⟩).headers
      = some [("accept", "*"), ("content-type", "application/json; charset=utf-8")]
    ∧ (normalizeOptions ⟨some "https://api.test/x", "POST",
        some [("content-type", "text/x")], .str "x", false, none⟩).headers
      = some [("content-type", "text/x")] :=
  ⟨(c7_content_type_default
      ⟨some "https://api.test/x", "POST", some [("accept", "*")], .str "x", false, none⟩
      [("accept", "*")] rfl rfl).1 rfl,
   (c7_content_type_default
      ⟨some "https://api.test/x", "POST", some [("content-type", "text/x")], .str "x", false,
        none⟩
      [("content-type", "text/x")] rfl rfl).2 "text/x" rfl⟩

/-- C8: a descriptor whose method uppercases to PUT or PATCH (so lowercase
spellings are covered — the method is uppercased at line 27, before the
check at line 31) and whose body is absent is dispatched with the
empty-string body, never undefined. -/
theorem c8_put_patch_empty_body (r : RequestOptions) (hb : r.body = .undef)
    (hm : jsToUpper r.method = "PUT" ∨ jsToUpper r.method = "PATCH") :
    (normalizeOptions r).body = .str "" := by
  have hcond : ((step2 (step1 r)).method = "PATCH" ∨ (step2 (step1 r)).method = "PUT")
      ∧ ¬truthyBody (step2 (step1 r)).body = true := by
    constructor
    · show jsToUpper (step1 r).method = "PATCH" ∨ jsToUpper (step1 r).method = "PUT"
      rw [(step1_preserves r).1]
      tauto
    · show ¬truthyBody (step2 (step1 r)).body = true
      rw [(step2_preserves _).2.2.1, (step1_preserves r).2.2.1, hb]
      simp [truthyBody]
  have h3 : step3 (step2 (step1 r)) = { step2 (step1 r) with body := .str "" } := by
    unfold step3
    rw [if_pos hcond]
  unfold normalizeOptions
  rw [h3]
  rfl

/-- C8 (witness): a lowercase "put" descriptor with no body gets the
empty-string body. -/
theorem c8_witness :
    (normalizeOptions ⟨some "https://api.test/x", "put", some [], .undef, false, none⟩).body
      = .str "" :=
  c8_put_patch_empty_body _ rfl (Or.inl rfl)

/-- C9: serialize-dispatch-deserialize round-trip. For every plain-object or
array body, the normalizer replaces the body by exactly
`JSON.stringify` of the value, and when the server echoes that JSON back
under an `application/json` content-type, the call resolves with data
structurally equal to the original value. -/
theorem c9_roundtrip (r : RequestOptions) (v : JVal)
    (hv : isPlainObjectOrArray (.jval v) = true) (hb : r.body = .jval v) (hx : r.xhr = false) :
    (normalizeOptions r).body = .str (JSON.stringify v)
    ∧ (request r (.response ⟨200, [("content-type", "application/json")],
        JSON.stringify v⟩)).2
      = .resolved (.val v) (.hmap [("content-type", "application/json")]) := by
  constructor
  · have ht : truthyBody r.body = true := by
      rw [hb]
      rcases v with _ | _ | _ | _ | es | fs <;> simp_all [isPlainObjectOrArray, truthyBody, jsTruthy]
    unfold normalizeOptions
    rw [step3_truthy _ (by rw [(step2_preserves _).2.2.1, (step1_preserves _).2.2.1]; exact ht)]
    unfold step4
    rw [(step2_preserves _).2.2.1, (step1_preserves _).2.2.1, hb]
    rcases v with _ | _ | _ | _ | es | fs <;> simp_all [isPlainObjectOrArray]
  · rw [request_fetch _ _ hx]
    rw [fetch_response_json (normalizeOptions r)
      ⟨200, [("content-type", "application/json")], JSON.stringify v⟩ v (by simp) (by simp)
      (by simp) rfl (JSON.parse_stringify v)]
    rfl

/-- C9 (witness): the round trip at the spec's own scenario, body
`(a : 1, b : [2,3])`. -/
theorem c9_witness :
    (normalizeOptions ⟨some "https://api.test/x", "POST", some [],
        .jval (.jobj [("a", .jnum 1), ("b", .jarr [.jnum 2, .jnum 3])]), false, none⟩).body
      = .str (JSON.stringify (.jobj [("a", .jnum 1), ("b", .jarr [.jnum 2, .jnum 3])]))
    ∧ (request ⟨some "https://api.test/x", "POST", some [],
        .jval (.jobj [("a", .jnum 1), ("b", .jarr [.jnum 2, .jnum 3])]), false, none⟩
        (.response ⟨200, [("content-type", "application/json")],
          JSON.stringify (.jobj [("a", .jnum 1), ("b", .jarr [.jnum 2, .jnum 3])])⟩)).2
      = .resolved (.val (.jobj [("a", .jnum 1), ("b", .jarr [.jnum 2, .jnum 3])]))
          (.hmap [("content-type", "application/json")]) :=
  c9_roundtrip _ _ rfl rfl rfl

/-- C10: when the descriptor carries no headers object at all, the
normalizer does not attach the default content-type even for a present
body — lodash defaults builds a fresh object whose result the code
discards — so the request is dispatched with no headers and hence no
content-type. -/
theorem c10_no_headers_untouched (r : RequestOptions) (h : r.headers = none) :
    (normalizeOptions r).headers = none := by
  rw [normalize_headers, h]
  split
  · rfl
  · rfl

/-- C10 (witness): a headerless descriptor with a present (truthy) body
still dispatches with no headers. -/
theorem c10_witness :
    truthyBody (Body.str "hello") = true
    ∧ (normalizeOptions ⟨some "https://api.test/x", "POST", none, .str "hello", false,
        none⟩).headers = none :=
  ⟨rfl, c10_no_headers_untouched _ rfl⟩

end RestJs
